import Mathlib

/-!
Verification of the PostLang compiler and analyzer.

The development shallowly embeds the two modules of the program:

* `compiler` : a line-oriented parser for the `.post` markup, a structural
  and stylistic validator, a deterministic text generator, and the `compile`
  driver combining them;
* `analyzer` : a heuristic scorer for arbitrary plain text.

Modelling conventions:

* Strings are modelled as `List Char` (abbreviated `Str`); the host
  language's string indices and lengths are in UTF-16 code units, which we
  model as code points.  The two coincide on all text of the Basic
  Multilingual Plane (everything appearing in the statements below).
* The host regexes are translated into explicit functional matchers,
  including the greedy backtracking behaviour where it is observable
  (the limit directive, the evidence line and the source line).
* The emoji regex is declared at module level with the global flag and used
  with `test`, so it carries a mutable `lastIndex` between calls.  We model
  that state explicitly: `validateSt`/`analyzeSt`/`compileSt` take the
  regex state and return the new one; `validate`/`analyze`/`compile` are
  the calls made with a fresh module state (`lastIndex = 0`).
-/

set_option maxRecDepth 40000

namespace PostLang

abbrev Str := List Char

/-- `\s` and `String.prototype.trim` whitespace class of the host language. -/
def jsWhitespace (c : Char) : Bool :=
  let n := c.toNat
  (9 ≤ n && n ≤ 13) || n = 32 || n = 0xA0 || n = 0x1680 ||
    (0x2000 ≤ n && n ≤ 0x200A) || n = 0x2028 || n = 0x2029 ||
    n = 0x202F || n = 0x205F || n = 0x3000 || n = 0xFEFF

/-- Drop trailing whitespace. -/
def rtrimWs (s : Str) : Str :=
  (s.reverse.dropWhile jsWhitespace).reverse

/-- `String.prototype.trim`. -/
def jsTrim (s : Str) : Str :=
  rtrimWs (s.dropWhile jsWhitespace)

/-- `String.prototype.split('\n')`. -/
def splitNl : Str → List Str
  | [] => [[]]
  | c :: rest =>
    if c = '\n' then [] :: splitNl rest
    else
      match splitNl rest with
      | l :: ls => (c :: l) :: ls
      | [] => [[c]]

/-- `\w` word characters: ASCII letters, digits and underscore. -/
def wordChar (c : Char) : Bool :=
  c.isAlphanum || c = '_'

/-- Substring test, the host's `String.prototype.includes hay.includes needle`
(also used for the un-flagged search regexes). -/
def strContains : Str → Str → Bool
  | [], needle => needle.isEmpty
  | a :: t, needle => needle.isPrefixOf (a :: t) || strContains t needle

/-- `String.prototype.toLowerCase` (ASCII; all scanned phrases are ASCII). -/
def lowerStr (s : Str) : Str := s.map Char.toLower

/-- Count of occurrences of a character, `(s.match of a single-char global
regex).length`. -/
def countChar (c : Char) (s : Str) : Nat :=
  (s.filter (fun d => d = c)).length

/-- `parseInt(digits, 10)` on a nonempty digit string. -/
def natOfDigits (ds : Str) : Nat :=
  ds.foldl (fun acc c => acc * 10 + (c.toNat - 48)) 0

/-- Decimal rendering of a number, as used by template literals. -/
def natStr (n : Nat) : Str := (Nat.repr n).data

/-- The emoji character class of `EMOJI_REGEX` / `EMOJI_RE`. -/
def isEmojiChar (c : Char) : Bool :=
  let n := c.toNat
  (0x1F600 ≤ n && n ≤ 0x1F64F) || (0x1F300 ≤ n && n ≤ 0x1F5FF) ||
    (0x1F680 ≤ n && n ≤ 0x1F6FF) || (0x1F1E0 ≤ n && n ≤ 0x1F1FF) ||
    (0x2600 ≤ n && n ≤ 0x26FF) || (0x2700 ≤ n && n ≤ 0x27BF)

/-- Least emoji position at index `start` or later. -/
def findEmojiFrom (s : Str) (start : Nat) : Option Nat :=
  match (s.drop start).findIdx? isEmojiChar with
  | some j => some (start + j)
  | none => none

/-- `EMOJI_REGEX.test s` for a regex whose global-flag `lastIndex` is the
first argument; returns the test result together with the updated
`lastIndex` (a match advances it past the match, a failure resets it). -/
def emojiTestG (lastIndex : Nat) (s : Str) : Bool × Nat :=
  if s.length < lastIndex then (false, 0)
  else
    match findEmojiFrom s lastIndex with
    | some i => (true, i + 1)
    | none => (false, 0)

/-! ### The data model (`PostLangAST` and friends) -/

structure EvidenceItem where
  value : Str
  context : Str
deriving DecidableEq, Repr

structure SourceRef where
  title : Str
  url : Str
  credibility : Str
deriving DecidableEq, Repr

/-- `PostLangLimits`: the optional per-key overrides. -/
structure LimitsOverride where
  title : Option Nat := none
  claim : Option Nat := none
  evidence : Option Nat := none
  insight : Option Nat := none
  context : Option Nat := none
  total : Option Nat := none
deriving DecidableEq, Repr

/-- Effective limits after spreading overrides over the defaults. -/
structure Limits where
  title : Nat
  claim : Nat
  evidence : Nat
  insight : Nat
  context : Nat
  total : Nat
deriving DecidableEq, Repr

def DEFAULT_LIMITS : Limits :=
  { title := 80, claim := 150, evidence := 60,
    insight := 120, context := 100, total := 700 }

/-- `{...DEFAULT_LIMITS, ...ast.limits}`. -/
def effLimits : Option LimitsOverride → Limits
  | none => DEFAULT_LIMITS
  | some o =>
    { title := o.title.getD DEFAULT_LIMITS.title
      claim := o.claim.getD DEFAULT_LIMITS.claim
      evidence := o.evidence.getD DEFAULT_LIMITS.evidence
      insight := o.insight.getD DEFAULT_LIMITS.insight
      context := o.context.getD DEFAULT_LIMITS.context
      total := o.total.getD DEFAULT_LIMITS.total }

/-- `Partial of PostLangAST` as built by the parser: absent fields are
`none`, `evidence` starts out as the empty array. -/
structure PartialAST where
  title : Option Str := none
  claim : Option Str := none
  evidence : List EvidenceItem := []
  insight : Option Str := none
  context : Option Str := none
  credential : Option Str := none
  source : Option SourceRef := none
  limits : Option LimitsOverride := none
deriving DecidableEq, Repr

/-- Truthiness of an optional string field (`undefined` and the empty
string are falsy). -/
def truthy : Option Str → Bool
  | none => false
  | some s => !s.isEmpty

structure CompileResult where
  success : Bool
  output : Option Str := none
  errors : List Str
  warnings : List Str
deriving DecidableEq, Repr

/-! ### The parser -/

/-- Match `"([^"]+)"` at the head: a double quote, one or more non-quote
characters, a closing quote.  Returns the capture and the remainder. -/
def matchQuoted (cs : Str) : Option (Str × Str) :=
  match cs with
  | '"' :: rest =>
    let content := rest.takeWhile (fun c => !(c = '"'))
    if content.isEmpty then none
    else
      match rest.drop content.length with
      | '"' :: after => some (content, after)
      | _ => none
  | _ => none

/-- Match `\s*"([^"]+)"`, keeping only the capture (used by the `#`, `!`,
`>`, `?` and `*` directives, whose regexes stop at the closing quote). -/
def matchQuotedAfterWs (cs : Str) : Option Str :=
  (matchQuoted (cs.dropWhile jsWhitespace)).map (fun r => r.1)

/-- Backtracking tail of `^\^\s*(\w+)\s*(\d+)`: when the maximal word run
is not followed (after whitespace) by a digit, the engine gives back
characters of the word run one at a time; the first position `k ≥ 1` from
the right whose character is a digit wins, the key being the first `k`
characters and the value the digit run starting there. -/
def limitBackGo (w : Str) : Nat → Option (Str × Str)
  | 0 => none
  | k + 1 =>
    if ((w.drop (k + 1)).head?.map Char.isDigit).getD false then
      some (w.take (k + 1), (w.drop (k + 1)).takeWhile Char.isDigit)
    else limitBackGo w k

/-- `line.match of ^\^\s*(\w+)\s*(\d+)` applied to the text after the `^`
symbol: returns the two captures (key, digit string) on success. -/
def limitMatch (rest : Str) : Option (Str × Str) :=
  let r1 := rest.dropWhile jsWhitespace
  let w := r1.takeWhile wordChar
  if w.isEmpty then none
  else
    let r3 := (r1.drop w.length).dropWhile jsWhitespace
    if (r3.head?.map Char.isDigit).getD false then
      some (w, r3.takeWhile Char.isDigit)
    else limitBackGo w (w.length - 1)

/-- `ast.limits[key] = value` guarded by the recognized-key check; an
unrecognized key leaves the overrides unchanged. -/
def setLimit (o : LimitsOverride) (key : Str) (v : Nat) : LimitsOverride :=
  if key = "title".data then { o with title := some v }
  else if key = "claim".data then { o with claim := some v }
  else if key = "evidence".data then { o with evidence := some v }
  else if key = "insight".data then { o with insight := some v }
  else if key = "context".data then { o with context := some v }
  else if key = "total".data then { o with total := some v }
  else o

/-- Backtracking match of `(\S+)\s*\|\s*"([^"]+)"` (tail of the source
regex): the maximal non-whitespace run is shortened from the right until a
`|` followed by a quoted string can be matched. -/
def urlCredGo (cs : Str) : Nat → Option (Str × Str)
  | 0 => none
  | k + 1 =>
    match (cs.drop (k + 1)).dropWhile jsWhitespace with
    | '|' :: r3 =>
      match matchQuoted (r3.dropWhile jsWhitespace) with
      | some r => some (cs.take (k + 1), r.1)
      | none => urlCredGo cs k
    | _ => urlCredGo cs k

/-- Match `(\S+)\s*\|\s*"([^"]+)"` at the head of `cs`. -/
def matchUrlCred (cs : Str) : Option (Str × Str) :=
  let n := (cs.takeWhile (fun c => !jsWhitespace c)).length
  if n = 0 then none else urlCredGo cs n

/-- Match of the source regex `^@\s*"([^"]+)"\s*\|\s*(\S+)\s*\|\s*"([^"]+)"`
applied to the text after the `@` symbol. -/
def sourceMatch (rest : Str) : Option SourceRef :=
  match matchQuoted (rest.dropWhile jsWhitespace) with
  | none => none
  | some r =>
    match (r.2.dropWhile jsWhitespace) with
    | '|' :: r4 =>
      match matchUrlCred (r4.dropWhile jsWhitespace) with
      | some uc => some { title := r.1, url := uc.1, credibility := uc.2 }
      | none => none
    | _ => none

/-- Parse error messages (template literals of the parser). -/
def msgInvalidTitle (n : Nat) : Str :=
  "Line ".data ++ natStr n ++ ": Invalid title. Use # \x22Your title\x22".data

def msgInvalidClaim (n : Nat) : Str :=
  "Line ".data ++ natStr n ++ ": Invalid claim. Use ! \x22Your claim\x22".data

def msgInvalidEvidence (n : Nat) : Str :=
  "Line ".data ++ natStr n ++ ": Invalid evidence. Use + value | \x22context\x22".data

def msgInvalidInsight (n : Nat) : Str :=
  "Line ".data ++ natStr n ++ ": Invalid insight. Use > \x22Your insight\x22".data

def msgInvalidSource (n : Nat) : Str :=
  "Line ".data ++ natStr n ++
    ": Invalid source. Use @ \x22Title\x22 | url | \x22why this source is credible\x22".data

/-- One iteration of the parser's line loop: trim, skip blanks and `//`
comments, dispatch on the first character; strict directives push an error
on mismatch, lenient ones (`^`, `?`, `*`) and unrecognized lines are
skipped silently. -/
def parseStep (lineNum : Nat) (rawLine : Str) (st : PartialAST × List Str) :
    PartialAST × List Str :=
  let line := jsTrim rawLine
  if line.isEmpty then st
  else if line.take 2 = "//".data then st
  else
    match line with
    | '^' :: rest =>
      match limitMatch rest with
      | some kv =>
        let cur := st.1.limits.getD {}
        ({ st.1 with limits := some (setLimit cur (lowerStr kv.1) (natOfDigits kv.2)) }, st.2)
      | none => st
    | '#' :: rest =>
      match matchQuotedAfterWs rest with
      | some content => ({ st.1 with title := some content }, st.2)
      | none => (st.1, st.2 ++ [msgInvalidTitle lineNum])
    | '!' :: rest =>
      match matchQuotedAfterWs rest with
      | some content => ({ st.1 with claim := some content }, st.2)
      | none => (st.1, st.2 ++ [msgInvalidClaim lineNum])
    | '+' :: rest =>
      let pre := rest.takeWhile (fun c => !(c = '|'))
      if pre.length = rest.length ∨ pre.isEmpty then
        (st.1, st.2 ++ [msgInvalidEvidence lineNum])
      else
        match matchQuoted ((rest.drop (pre.length + 1)).dropWhile jsWhitespace) with
        | some r =>
          ({ st.1 with evidence := st.1.evidence ++ [{ value := jsTrim pre, context := r.1 }] }, st.2)
        | none => (st.1, st.2 ++ [msgInvalidEvidence lineNum])
    | '>' :: rest =>
      match matchQuotedAfterWs rest with
      | some content => ({ st.1 with insight := some content }, st.2)
      | none => (st.1, st.2 ++ [msgInvalidInsight lineNum])
    | '?' :: rest =>
      match matchQuotedAfterWs rest with
      | some content => ({ st.1 with context := some content }, st.2)
      | none => st
    | '*' :: rest =>
      match matchQuotedAfterWs rest with
      | some content => ({ st.1 with credential := some content }, st.2)
      | none => st
    | '@' :: rest =>
      match sourceMatch rest with
      | some src => ({ st.1 with source := some src }, st.2)
      | none => (st.1, st.2 ++ [msgInvalidSource lineNum])
    | _ => st

def parseGo : Nat → List Str → (PartialAST × List Str) → PartialAST × List Str
  | _, [], st => st
  | i, l :: ls, st => parseGo (i + 1) ls (parseStep i l st)

/-- `PostLangCompiler.parse`. -/
def parse (source : Str) : PartialAST × List Str :=
  parseGo 1 (splitNl source) ({}, [])

/-! ### The validator -/

/-- `BANNED_PHRASES` of the compiler module. -/
def BANNED_PHRASES : List Str :=
  ["game-changer".data,
   "game changer".data,
   "revolutionary".data,
   "groundbreaking".data,
   "exciting".data,
   "thrilled".data,
   "delighted".data,
   "proud to announce".data,
   "thrilled to announce".data,
   "excited to share".data,
   "let me tell you".data,
   "here\x27s the thing".data,
   "in today\x27s world".data,
   "in this day and age".data,
   "at the end of the day".data,
   "it goes without saying".data,
   "needless to say".data,
   "leverage".data,
   "synergy".data,
   "paradigm shift".data,
   "disruptive".data,
   "innovative solution".data,
   "cutting-edge".data,
   "state-of-the-art".data,
   "best-in-class".data,
   "world-class".data,
   "next-level".data,
   "deep dive".data,
   "unpack".data,
   "circle back".data,
   "move the needle".data]

/-- Validation error messages. -/
def msgMissingTitle : Str := "Missing # (title)".data

def msgMissingClaim : Str := "Missing ! (claim)".data

def msgMissingEvidence : Str := "Missing + (evidence)".data

def msgMissingInsight : Str := "Missing > (insight)".data

def msgMissingSource : Str := "Missing @ (source)".data

def msgTitleLen (lim len : Nat) : Str :=
  "# exceeds ".data ++ natStr lim ++ " chars (has ".data ++ natStr len ++ ")".data

def msgTitleQuestion : Str := "# cannot be a question".data

def msgTitleExcl : Str := "# cannot contain exclamation marks".data

def msgClaimLen (lim len : Nat) : Str :=
  "! exceeds ".data ++ natStr lim ++ " chars (has ".data ++ natStr len ++ ")".data

def msgEvCount : Str := "+ limited to 5 items maximum".data

def msgEvItem (i lim len : Nat) : Str :=
  "+ item ".data ++ natStr i ++ " exceeds ".data ++ natStr lim ++
    " chars (has ".data ++ natStr len ++ ")".data

def msgInsightLen (lim len : Nat) : Str :=
  "> exceeds ".data ++ natStr lim ++ " chars (has ".data ++ natStr len ++ ")".data

def msgCtx (lim len : Nat) : Str :=
  "? exceeds ".data ++ natStr lim ++ " chars (has ".data ++ natStr len ++ ")".data

def msgEmoji : Str := "Emojis are not allowed".data

def msgBanned (p : Str) : Str :=
  "Banned phrase: \x22".data ++ p ++ "\x22".data

def msgExcl (n : Nat) : Str :=
  "Exclamation marks not allowed (found ".data ++ natStr n ++ ")".data

def msgTotal (lim len : Nat) : Str :=
  "Output exceeds ".data ++ natStr lim ++ " chars (has ".data ++ natStr len ++ ")".data

/-- `Array.prototype.join(sep)`. -/
def joinWith (sep : Str) : List Str → Str
  | [] => []
  | [x] => x
  | x :: y :: t => x ++ sep ++ joinWith sep (y :: t)

/-- The prose-bearing field values of a document, in scan order:
title, claim, insight, context (those that are present), then every
evidence context string.  Source and credential are not included. -/
def proseFields (ast : PartialAST) : List Str :=
  ([ast.title, ast.claim, ast.insight, ast.context].filterMap id) ++
    ast.evidence.map (fun e => e.context)

/-- The style-scanned text of a document: the prose fields, falsy entries
filtered out, joined by single spaces and lowercased. -/
def allTextOf (ast : PartialAST) : Str :=
  lowerStr (joinWith " ".data ((proseFields ast).filter (fun s => !s.isEmpty)))

/-- `PostLangCompiler.validate`, with the emoji regex state threaded
through.  Result: `((errors, warnings), new emoji-regex lastIndex)`. -/
def validateSt (emSt : Nat) (ast : PartialAST) : (List Str × List Str) × Nat :=
  let limits := effLimits ast.limits
  let allText := allTextOf ast
  let em := emojiTestG emSt allText
  let errors :=
    (if truthy ast.title then [] else [msgMissingTitle]) ++
    (if truthy ast.claim then [] else [msgMissingClaim]) ++
    (if ast.evidence.isEmpty then [msgMissingEvidence] else []) ++
    (if truthy ast.insight then [] else [msgMissingInsight]) ++
    (if ast.source.isSome then [] else [msgMissingSource]) ++
    (if truthy ast.title then
      (if limits.title < (ast.title.getD []).length then
        [msgTitleLen limits.title (ast.title.getD []).length] else []) ++
      (if (ast.title.getD []).getLast? = some '?' then [msgTitleQuestion] else []) ++
      (if '!' ∈ ast.title.getD [] then [msgTitleExcl] else [])
     else []) ++
    (if truthy ast.claim ∧ limits.claim < (ast.claim.getD []).length then
      [msgClaimLen limits.claim (ast.claim.getD []).length] else []) ++
    (if 5 < ast.evidence.length then [msgEvCount] else []) ++
    (ast.evidence.enum.map (fun iev =>
      if limits.evidence < (iev.2.value ++ " ".data ++ iev.2.context).length then
        [msgEvItem (iev.1 + 1) limits.evidence
          (iev.2.value ++ " ".data ++ iev.2.context).length]
      else [])).flatten ++
    (if truthy ast.insight ∧ limits.insight < (ast.insight.getD []).length then
      [msgInsightLen limits.insight (ast.insight.getD []).length] else []) ++
    (if em.1 then [msgEmoji] else []) ++
    (BANNED_PHRASES.filter (fun p => strContains allText (lowerStr p))).map msgBanned ++
    (if 0 < countChar '!' allText then [msgExcl (countChar '!' allText)] else [])
  let warnings :=
    if truthy ast.context ∧ limits.context < (ast.context.getD []).length then
      [msgCtx limits.context (ast.context.getD []).length]
    else []
  ((errors, warnings), em.2)

/-- A `validate` call made with a fresh emoji-regex state. -/
def validate (ast : PartialAST) : List Str × List Str :=
  (validateSt 0 ast).1

/-! ### The generator -/

/-- `url.replace of ^https?:\/\/` then `^www\.`. -/
def displayUrl (u : Str) : Str :=
  let u1 :=
    if u.take 8 = "https://".data then u.drop 8
    else if u.take 7 = "http://".data then u.drop 7
    else u
  if u1.take 4 = "www.".data then u1.drop 4 else u1

/-- `PostLangCompiler.generate`.  The host function requires a fully valid
document; `compile` only reaches it when validation produced no errors, so
every required field is present there.  Absent optional fields are skipped
by the same truthiness tests as the host code. -/
def generate (ast : PartialAST) : Str :=
  let src := ast.source.getD {title := [], url := [], credibility := []}
  let lines :=
    [ast.title.getD [] ++ ".".data, []] ++
    (if truthy ast.context then [ast.context.getD [], []] else []) ++
    [ast.claim.getD [] ++ ".".data, []] ++
    (if ast.evidence.isEmpty then []
     else ["Results:".data] ++
       ast.evidence.map (fun e => "- ".data ++ e.value ++ " ".data ++ e.context) ++
       [[]]) ++
    [ast.insight.getD [] ++ ".".data, []] ++
    (if truthy ast.credential then
      ["[".data ++ ast.credential.getD [] ++ "]".data, []] else []) ++
    ["Source: ".data ++ src.title,
     "[".data ++ src.credibility ++ "]".data,
     displayUrl src.url]
  joinWith "\n".data lines

/-! ### The compile driver -/

/-- `PostLangCompiler.compile`, with the emoji regex state threaded
through (the state is only touched when validation runs). -/
def compileSt (emSt : Nat) (source : Str) : CompileResult × Nat :=
  let pr := parse source
  if 0 < pr.2.length then
    ({ success := false, output := none, errors := pr.2, warnings := [] }, emSt)
  else
    let vr := validateSt emSt pr.1
    if 0 < vr.1.1.length then
      ({ success := false, output := none, errors := vr.1.1, warnings := vr.1.2 }, vr.2)
    else
      let output := generate pr.1
      let limits := effLimits pr.1.limits
      if limits.total < output.length then
        ({ success := false, output := none,
           errors := [msgTotal limits.total output.length], warnings := vr.1.2 }, vr.2)
      else
        ({ success := true, output := some output, errors := [], warnings := vr.1.2 }, vr.2)

/-- A `compile` call made with a fresh emoji-regex state. -/
def compile (source : Str) : CompileResult :=
  (compileSt 0 source).1

/-! ### The analyzer -/

/-- `BANNED` of the analyzer module (an independently maintained literal
list with the same entries as `BANNED_PHRASES`). -/
def BANNED : List Str :=
  ["game-changer".data,
   "game changer".data,
   "revolutionary".data,
   "groundbreaking".data,
   "exciting".data,
   "thrilled".data,
   "delighted".data,
   "proud to announce".data,
   "thrilled to announce".data,
   "excited to share".data,
   "let me tell you".data,
   "here\x27s the thing".data,
   "in today\x27s world".data,
   "in this day and age".data,
   "at the end of the day".data,
   "it goes without saying".data,
   "needless to say".data,
   "leverage".data,
   "synergy".data,
   "paradigm shift".data,
   "disruptive".data,
   "innovative solution".data,
   "cutting-edge".data,
   "state-of-the-art".data,
   "best-in-class".data,
   "world-class".data,
   "next-level".data,
   "deep dive".data,
   "unpack".data,
   "circle back".data,
   "move the needle".data]

/-- The numeric evidence pattern `\d+%|\d+x|\d+\.\d+` as an unanchored
search: a digit immediately followed by `%` or `x`, or a digit, a dot and
a digit in a row. -/
def evidencePattern : Str → Bool
  | [] => false
  | c :: rest =>
    (c.isDigit &&
      (match rest with
       | d :: rest2 =>
         d = '%' || d = 'x' ||
           (d = '.' && (match rest2 with
                        | e :: _ => e.isDigit
                        | [] => false))
       | [] => false)) ||
    evidencePattern rest

/-- The bullet character class `[-â€¢*]` of the analyzer.  Note: the class
consists of the literal characters `-`, `â` (U+00E2), `€` (U+20AC),
`¢` (U+00A2) and `*` — the middle three are the mojibake of a UTF-8
encoded `•` (U+2022) read as Latin-1 — so the class does not contain the
bullet character `•` itself. -/
def bulletChar (c : Char) : Bool :=
  c = '-' || c = Char.ofNat 0xE2 || c = Char.ofNat 0x20AC ||
    c = Char.ofNat 0xA2 || c = '*'

/-- `^[-â€¢*]\s` : a bullet-class character followed by a whitespace
character, at the start of the string. -/
def bulletPattern : Str → Bool
  | c :: d :: _ => bulletChar c && jsWhitespace d
  | _ => false

/-- The analyzer's per-line evidence test:
`evidencePattern.test(line) || bulletPattern.test(line.trim())`. -/
def countsAsEvidence (line : Str) : Bool :=
  evidencePattern line || bulletPattern (jsTrim line)

/-- The source regex `/https?:\/\/|arxiv\.org|github\.com|Source:/i`
as a case-insensitive unanchored search. -/
def urlPattern (s : Str) : Bool :=
  let t := lowerStr s
  strContains t "http://".data || strContains t "https://".data ||
    strContains t "arxiv.org".data || strContains t "github.com".data ||
    strContains t "source:".data

structure AnalysisStructure where
  hasTitle : Bool
  hasClaim : Bool
  hasEvidence : Bool
  evidenceCount : Nat
  hasInsight : Bool
  hasSource : Bool
deriving DecidableEq, Repr

structure AnalysisResult where
  valid : Bool
  score : Int
  struct : AnalysisStructure
  issues : List Str
  warnings : List Str
  suggestions : List Str
deriving DecidableEq, Repr

/-- `PostLangAnalyzer.analyze`, with the analyzer's emoji regex state
threaded through.  Penalties are collected in host order and subtracted
from 100 before clamping to the interval from 0 to 100. -/
def analyzeSt (emSt : Nat) (text : Str) : AnalysisResult × Nat :=
  let lines := (splitNl text).filter (fun l => !(jsTrim l).isEmpty)
  let lowerText := lowerStr text
  let titleR :=
    match lines.head? with
    | some l0 =>
      let firstLine := jsTrim l0
      if 0 < firstLine.length ∧ firstLine.length ≤ 100 then (true, ([] : List Str), (0 : Int))
      else if 100 < firstLine.length then
        (false, ["First line too long for a title (>100 chars)".data], 10)
      else (false, [], 0)
    | none => (false, ["No title detected".data], 15)
  let evidenceCount := (lines.filter countsAsEvidence).length
  let hasEvidence := !(evidenceCount = 0 : Bool)
  let evR :=
    if evidenceCount = 0 then
      (["No evidence/data points detected".data],
       ["Add specific numbers or percentages to support claims".data],
       ([] : List Str), (20 : Int))
    else if evidenceCount < 2 then
      ([], [], ["Only 1 evidence point - consider adding more".data], 5)
    else ([], [], [], 0)
  let hasSource := urlPattern text
  let srcR :=
    if hasSource then (([] : List Str), ([] : List Str), (0 : Int))
    else (["No source/attribution detected".data], ["Add a source URL or citation".data], 15)
  let claimR :=
    if 2 ≤ lines.length then (true, ([] : List Str), (0 : Int))
    else (false, ["Post too short - no clear claim detected".data], 10)
  let nonTagLines := lines.filter (fun l => !(l.head? = some '#' : Bool) && !urlPattern l)
  let insightR :=
    if 3 ≤ nonTagLines.length then (true, ([] : List Str), ([] : List Str), (0 : Int))
    else (false, ["No clear insight/takeaway detected".data],
          ["Add a concluding insight before the source".data], 5)
  let bannedHits := BANNED.filter (fun p => strContains lowerText p)
  let bannedIssues := bannedHits.map (fun p =>
    "Contains banned phrase: \x22".data ++ p ++ "\x22".data)
  let em := emojiTestG emSt text
  let emR :=
    if em.1 then (["Contains emojis".data], (10 : Int)) else ([], 0)
  let exCount := countChar '!' text
  let exR :=
    if 0 < exCount then
      (["Contains ".data ++ natStr exCount ++ " exclamation mark(s)".data],
       (5 : Int) * exCount)
    else ([], 0)
  let questionR :=
    match lines.head? with
    | some l0 =>
      if (jsTrim l0).getLast? = some '?' then
        (["Title is a question (avoid clickbait)".data], (10 : Int))
      else ([], 0)
    | none => ([], 0)
  let lenR :=
    if 1300 < text.length then
      (["Post is long (".data ++ natStr text.length ++ " chars) - consider trimming".data],
       (5 : Int))
    else ([], 0)
  let issues := titleR.2.1 ++ evR.1 ++ srcR.1 ++ claimR.2.1 ++ bannedIssues ++
    emR.1 ++ exR.1 ++ questionR.1
  let warnings := evR.2.2.1 ++ insightR.2.1 ++ lenR.1
  let suggestions := evR.2.1 ++ srcR.2.1 ++ insightR.2.2.1
  let score : Int :=
    100 - titleR.2.2 - evR.2.2.2 - srcR.2.2 - claimR.2.2 -
      10 * bannedHits.length - emR.2 - exR.2 - questionR.2 - lenR.2 -
      insightR.2.2.2
  ({ valid := issues.isEmpty,
     score := max 0 (min 100 score),
     struct :=
       { hasTitle := titleR.1, hasClaim := claimR.1, hasEvidence := hasEvidence,
         evidenceCount := evidenceCount, hasInsight := insightR.1,
         hasSource := hasSource },
     issues := issues, warnings := warnings, suggestions := suggestions }, em.2)

/-- An `analyze` call made with a fresh emoji-regex state. -/
def analyze (text : Str) : AnalysisResult :=
  (analyzeSt 0 text).1

/-! ### Generic helper lemmas -/

theorem mem_ite_cons_nil {α : Type} {c : Prop} [Decidable c] {m x : α} :
    x ∈ (if c then [m] else []) ↔ c ∧ x = m := by
  split <;> simp_all

theorem mem_ite_nil_cons {α : Type} {c : Prop} [Decidable c] {m x : α} :
    x ∈ (if c then [] else [m]) ↔ ¬c ∧ x = m := by
  split <;> simp_all

theorem mem_ite_list_nil {α : Type} {c : Prop} [Decidable c] {l : List α} {x : α} :
    x ∈ (if c then l else []) ↔ c ∧ x ∈ l := by
  split <;> simp_all

theorem mem_flatten_map {α β : Type} {f : α → List β} {L : List α} {x : β} :
    x ∈ (L.map f).flatten ↔ ∃ a ∈ L, x ∈ f a := by
  simp [List.mem_flatten]

theorem ne_of_head (x y : Str) {a b : Char} (hx : x.head? = some a)
    (hy : y.head? = some b) (hab : ¬ a = b) : ¬ x = y := by
  intro h; rw [h, hy] at hx; exact hab (Option.some.inj hx).symm

theorem ne_of_take (x y : Str) (n : Nat) {x3 y3 : Str} (hx : x.take n = x3)
    (hy : y.take n = y3) (h : ¬ x3 = y3) : ¬ x = y := by
  intro e; apply h; rw [← hx, ← hy, e]

/-- `strContains hay needle` is the substring relation. -/
theorem strContains_iff {hay needle : Str} :
    strContains hay needle = true ↔ needle <:+: hay := by
  induction hay with
  | nil => simp [strContains, List.isEmpty_iff]
  | cons a t ih =>
    simp [strContains, List.isPrefixOf_iff_prefix, ih, List.infix_cons_iff]

/-- Every member of a joined list is an infix of the join. -/
theorem infix_joinWith (sep : Str) {l : Str} {L : List Str} (h : l ∈ L) :
    l <:+: joinWith sep L := by
  induction L with
  | nil => cases h
  | cons x t ih =>
    cases t with
    | nil =>
      rcases List.mem_cons.1 h with h | h
      · subst h; exact List.infix_rfl
      · cases h
    | cons y t2 =>
      rcases List.mem_cons.1 h with h | h
      · subst h
        show l <:+: l ++ sep ++ joinWith sep (y :: t2)
        rw [List.append_assoc]
        exact (List.prefix_append l _).isInfix
      · exact (ih h).trans ((List.suffix_append (x ++ sep) _).isInfix)

/-- Message-family discrimination: the first characters of the literal
prefixes of the validator's message templates. -/
theorem ne_msgTitleLen (x : Str) {c : Char} (hx : x.head? = some c)
    (h : ¬ c = '#') (a b : Nat) : ¬ x = msgTitleLen a b :=
  ne_of_head x _ hx rfl h

theorem ne_msgClaimLen (x : Str) {c : Char} (hx : x.head? = some c)
    (h : ¬ c = '!') (a b : Nat) : ¬ x = msgClaimLen a b :=
  ne_of_head x _ hx rfl h

theorem ne_msgInsightLen (x : Str) {c : Char} (hx : x.head? = some c)
    (h : ¬ c = '>') (a b : Nat) : ¬ x = msgInsightLen a b :=
  ne_of_head x _ hx rfl h

theorem ne_msgCtx (x : Str) {c : Char} (hx : x.head? = some c)
    (h : ¬ c = '?') (a b : Nat) : ¬ x = msgCtx a b :=
  ne_of_head x _ hx rfl h

theorem ne_msgExcl (x : Str) {c : Char} (hx : x.head? = some c)
    (h : ¬ c = 'E') (n : Nat) : ¬ x = msgExcl n :=
  ne_of_head x _ hx rfl h

theorem ne_msgBanned (x : Str) {c : Char} (hx : x.head? = some c)
    (h : ¬ c = 'B') (p : Str) : ¬ x = msgBanned p :=
  ne_of_head x _ hx rfl h

theorem ne_msgEvItem (x : Str) (t : Str) (hx : x.take 3 = t)
    (h : ¬ t = "+ i".data) (i a b : Nat) : ¬ x = msgEvItem i a b :=
  ne_of_take x _ 3 hx rfl h

theorem msgBanned_inj {p q : Str} (h : msgBanned p = msgBanned q) : p = q := by
  unfold msgBanned at h
  exact List.append_cancel_left (List.append_cancel_right h)

theorem msgBanned_eq_iff {p q : Str} : msgBanned p = msgBanned q ↔ p = q :=
  ⟨msgBanned_inj, fun h => by rw [h]⟩

/-! ### Membership in the validator's error and warning lists -/

/-- Unfolded membership for the `Missing # (title)` error. -/
theorem mem_validate_missingTitle (ast : PartialAST) :
    msgMissingTitle ∈ (validate ast).1 ↔ truthy ast.title = false := by
  have k1 := ne_msgTitleLen msgMissingTitle rfl (by decide)
  have k2 := ne_msgClaimLen msgMissingTitle rfl (by decide)
  have k3 := ne_msgInsightLen msgMissingTitle rfl (by decide)
  have k4 := ne_msgExcl msgMissingTitle rfl (by decide)
  have k5 := ne_msgBanned msgMissingTitle rfl (by decide)
  have k6 := ne_msgEvItem msgMissingTitle "Mis".data rfl (by decide)
  have k5s : ∀ p, ¬ msgBanned p = msgMissingTitle := fun p h => k5 p h.symm
  simp [validate, validateSt, List.mem_append, mem_ite_cons_nil, mem_ite_nil_cons,
    mem_ite_list_nil, mem_flatten_map, List.mem_map, List.mem_filter,
    k1, k2, k3, k4, k5, k5s, k6,
    (by decide : ¬ msgMissingTitle = msgMissingClaim),
    (by decide : ¬ msgMissingTitle = msgMissingEvidence),
    (by decide : ¬ msgMissingTitle = msgMissingInsight),
    (by decide : ¬ msgMissingTitle = msgMissingSource),
    (by decide : ¬ msgMissingTitle = msgTitleQuestion),
    (by decide : ¬ msgMissingTitle = msgTitleExcl),
    (by decide : ¬ msgMissingTitle = msgEvCount),
    (by decide : ¬ msgMissingTitle = msgEmoji)]
  intro x i ev hmem heq hx
  rw [← heq] at hx
  rcases mem_ite_cons_nil.1 hx with ⟨_, hx2⟩
  exact absurd hx2 (k6 _ _ _)

/-- Unfolded membership for the `Missing ! (claim)` error. -/
theorem mem_validate_missingClaim (ast : PartialAST) :
    msgMissingClaim ∈ (validate ast).1 ↔ truthy ast.claim = false := by
  have k1 := ne_msgTitleLen msgMissingClaim rfl (by decide)
  have k2 := ne_msgClaimLen msgMissingClaim rfl (by decide)
  have k3 := ne_msgInsightLen msgMissingClaim rfl (by decide)
  have k4 := ne_msgExcl msgMissingClaim rfl (by decide)
  have k5 := ne_msgBanned msgMissingClaim rfl (by decide)
  have k6 := ne_msgEvItem msgMissingClaim "Mis".data rfl (by decide)
  have k5s : ∀ p, ¬ msgBanned p = msgMissingClaim := fun p h => k5 p h.symm
  simp [validate, validateSt, List.mem_append, mem_ite_cons_nil, mem_ite_nil_cons,
    mem_ite_list_nil, mem_flatten_map, List.mem_map, List.mem_filter,
    k1, k2, k3, k4, k5, k5s, k6,
    (by decide : ¬ msgMissingClaim = msgMissingTitle),
    (by decide : ¬ msgMissingClaim = msgMissingEvidence),
    (by decide : ¬ msgMissingClaim = msgMissingInsight),
    (by decide : ¬ msgMissingClaim = msgMissingSource),
    (by decide : ¬ msgMissingClaim = msgTitleQuestion),
    (by decide : ¬ msgMissingClaim = msgTitleExcl),
    (by decide : ¬ msgMissingClaim = msgEvCount),
    (by decide : ¬ msgMissingClaim = msgEmoji)]
  intro x i ev hmem heq hx
  rw [← heq] at hx
  rcases mem_ite_cons_nil.1 hx with ⟨_, hx2⟩
  exact absurd hx2 (k6 _ _ _)

/-- Unfolded membership for the `Missing + (evidence)` error. -/
theorem mem_validate_missingEvidence (ast : PartialAST) :
    msgMissingEvidence ∈ (validate ast).1 ↔ ast.evidence = [] := by
  have k1 := ne_msgTitleLen msgMissingEvidence rfl (by decide)
  have k2 := ne_msgClaimLen msgMissingEvidence rfl (by decide)
  have k3 := ne_msgInsightLen msgMissingEvidence rfl (by decide)
  have k4 := ne_msgExcl msgMissingEvidence rfl (by decide)
  have k5 := ne_msgBanned msgMissingEvidence rfl (by decide)
  have k6 := ne_msgEvItem msgMissingEvidence "Mis".data rfl (by decide)
  have k5s : ∀ p, ¬ msgBanned p = msgMissingEvidence := fun p h => k5 p h.symm
  simp [validate, validateSt, List.mem_append, mem_ite_cons_nil, mem_ite_nil_cons,
    mem_ite_list_nil, mem_flatten_map, List.mem_map, List.mem_filter,
    List.isEmpty_iff,
    k1, k2, k3, k4, k5, k5s, k6,
    (by decide : ¬ msgMissingEvidence = msgMissingTitle),
    (by decide : ¬ msgMissingEvidence = msgMissingClaim),
    (by decide : ¬ msgMissingEvidence = msgMissingInsight),
    (by decide : ¬ msgMissingEvidence = msgMissingSource),
    (by decide : ¬ msgMissingEvidence = msgTitleQuestion),
    (by decide : ¬ msgMissingEvidence = msgTitleExcl),
    (by decide : ¬ msgMissingEvidence = msgEvCount),
    (by decide : ¬ msgMissingEvidence = msgEmoji)]
  intro x i ev hmem heq hx
  rw [← heq] at hx
  rcases mem_ite_cons_nil.1 hx with ⟨_, hx2⟩
  exact absurd hx2 (k6 _ _ _)

/-- Unfolded membership for the `Missing > (insight)` error. -/
theorem mem_validate_missingInsight (ast : PartialAST) :
    msgMissingInsight ∈ (validate ast).1 ↔ truthy ast.insight = false := by
  have k1 := ne_msgTitleLen msgMissingInsight rfl (by decide)
  have k2 := ne_msgClaimLen msgMissingInsight rfl (by decide)
  have k3 := ne_msgInsightLen msgMissingInsight rfl (by decide)
  have k4 := ne_msgExcl msgMissingInsight rfl (by decide)
  have k5 := ne_msgBanned msgMissingInsight rfl (by decide)
  have k6 := ne_msgEvItem msgMissingInsight "Mis".data rfl (by decide)
  have k5s : ∀ p, ¬ msgBanned p = msgMissingInsight := fun p h => k5 p h.symm
  simp [validate, validateSt, List.mem_append, mem_ite_cons_nil, mem_ite_nil_cons,
    mem_ite_list_nil, mem_flatten_map, List.mem_map, List.mem_filter,
    k1, k2, k3, k4, k5, k5s, k6,
    (by decide : ¬ msgMissingInsight = msgMissingTitle),
    (by decide : ¬ msgMissingInsight = msgMissingClaim),
    (by decide : ¬ msgMissingInsight = msgMissingEvidence),
    (by decide : ¬ msgMissingInsight = msgMissingSource),
    (by decide : ¬ msgMissingInsight = msgTitleQuestion),
    (by decide : ¬ msgMissingInsight = msgTitleExcl),
    (by decide : ¬ msgMissingInsight = msgEvCount),
    (by decide : ¬ msgMissingInsight = msgEmoji)]
  intro x i ev hmem heq hx
  rw [← heq] at hx
  rcases mem_ite_cons_nil.1 hx with ⟨_, hx2⟩
  exact absurd hx2 (k6 _ _ _)

/-- Unfolded membership for the `Missing @ (source)` error. -/
theorem mem_validate_missingSource (ast : PartialAST) :
    msgMissingSource ∈ (validate ast).1 ↔ ast.source = none := by
  rw [show (ast.source = none) ↔ ast.source.isSome = false from by
    cases ast.source <;> simp]
  have k1 := ne_msgTitleLen msgMissingSource rfl (by decide)
  have k2 := ne_msgClaimLen msgMissingSource rfl (by decide)
  have k3 := ne_msgInsightLen msgMissingSource rfl (by decide)
  have k4 := ne_msgExcl msgMissingSource rfl (by decide)
  have k5 := ne_msgBanned msgMissingSource rfl (by decide)
  have k6 := ne_msgEvItem msgMissingSource "Mis".data rfl (by decide)
  have k5s : ∀ p, ¬ msgBanned p = msgMissingSource := fun p h => k5 p h.symm
  simp [validate, validateSt, List.mem_append, mem_ite_cons_nil, mem_ite_nil_cons,
    mem_ite_list_nil, mem_flatten_map, List.mem_map, List.mem_filter,
    k1, k2, k3, k4, k5, k5s, k6,
    (by decide : ¬ msgMissingSource = msgMissingTitle),
    (by decide : ¬ msgMissingSource = msgMissingClaim),
    (by decide : ¬ msgMissingSource = msgMissingEvidence),
    (by decide : ¬ msgMissingSource = msgMissingInsight),
    (by decide : ¬ msgMissingSource = msgTitleQuestion),
    (by decide : ¬ msgMissingSource = msgTitleExcl),
    (by decide : ¬ msgMissingSource = msgEvCount),
    (by decide : ¬ msgMissingSource = msgEmoji)]
  intro x i ev hmem heq hx
  rw [← heq] at hx
  rcases mem_ite_cons_nil.1 hx with ⟨_, hx2⟩
  exact absurd hx2 (k6 _ _ _)

/-- Unfolded membership for the `+ limited to 5 items maximum` error. -/
theorem mem_validate_evCount (ast : PartialAST) :
    msgEvCount ∈ (validate ast).1 ↔ 5 < ast.evidence.length := by
  have k1 := ne_msgTitleLen msgEvCount rfl (by decide)
  have k2 := ne_msgClaimLen msgEvCount rfl (by decide)
  have k3 := ne_msgInsightLen msgEvCount rfl (by decide)
  have k4 := ne_msgExcl msgEvCount rfl (by decide)
  have k5 := ne_msgBanned msgEvCount rfl (by decide)
  have k6 := ne_msgEvItem msgEvCount "+ l".data rfl (by decide)
  have k5s : ∀ p, ¬ msgBanned p = msgEvCount := fun p h => k5 p h.symm
  simp [validate, validateSt, List.mem_append, mem_ite_cons_nil, mem_ite_nil_cons,
    mem_ite_list_nil, mem_flatten_map, List.mem_map, List.mem_filter,
    k1, k2, k3, k4, k5, k5s, k6,
    (by decide : ¬ msgEvCount = msgMissingTitle),
    (by decide : ¬ msgEvCount = msgMissingClaim),
    (by decide : ¬ msgEvCount = msgMissingEvidence),
    (by decide : ¬ msgEvCount = msgMissingInsight),
    (by decide : ¬ msgEvCount = msgMissingSource),
    (by decide : ¬ msgEvCount = msgTitleQuestion),
    (by decide : ¬ msgEvCount = msgTitleExcl),
    (by decide : ¬ msgEvCount = msgEmoji)]
  intro x i ev hmem heq hx
  rw [← heq] at hx
  rcases mem_ite_cons_nil.1 hx with ⟨_, hx2⟩
  exact absurd hx2 (k6 _ _ _)

/-- The context-length message never appears in the error list, for any
document and any message parameters. -/
theorem not_mem_validate_ctx (ast : PartialAST) (a b : Nat) :
    ¬ msgCtx a b ∈ (validate ast).1 := by
  have k1 := ne_msgTitleLen (msgCtx a b) rfl (by decide)
  have k2 := ne_msgClaimLen (msgCtx a b) rfl (by decide)
  have k3 := ne_msgInsightLen (msgCtx a b) rfl (by decide)
  have k4 := ne_msgExcl (msgCtx a b) rfl (by decide)
  have k5 := ne_msgBanned (msgCtx a b) rfl (by decide)
  have k6 := ne_msgEvItem (msgCtx a b) "? e".data rfl (by decide)
  have k5s : ∀ p, ¬ msgBanned p = msgCtx a b := fun p h => k5 p h.symm
  intro hmem
  simp [validate, validateSt, List.mem_append, mem_ite_cons_nil, mem_ite_nil_cons,
    mem_ite_list_nil, mem_flatten_map, List.mem_map, List.mem_filter,
    k1, k2, k3, k4, k5, k5s, k6,
    ne_of_head (msgCtx a b) msgMissingTitle rfl rfl (by decide),
    ne_of_head (msgCtx a b) msgMissingClaim rfl rfl (by decide),
    ne_of_head (msgCtx a b) msgMissingEvidence rfl rfl (by decide),
    ne_of_head (msgCtx a b) msgMissingInsight rfl rfl (by decide),
    ne_of_head (msgCtx a b) msgMissingSource rfl rfl (by decide),
    ne_of_head (msgCtx a b) msgTitleQuestion rfl rfl (by decide),
    ne_of_head (msgCtx a b) msgTitleExcl rfl rfl (by decide),
    ne_of_head (msgCtx a b) msgEvCount rfl rfl (by decide),
    ne_of_head (msgCtx a b) msgEmoji rfl rfl (by decide)] at hmem
  obtain ⟨x, ⟨i, ev, hmem2, heq⟩, hx⟩ := hmem
  rw [← heq] at hx
  rcases mem_ite_cons_nil.1 hx with ⟨_, hx2⟩
  exact absurd hx2 (k6 _ _ _)

/-- Unfolded membership for banned-phrase errors: the error naming a
phrase is present exactly when that phrase is a listed phrase whose
lowercase form occurs in the scanned text. -/
theorem mem_validate_banned (ast : PartialAST) (p : Str) :
    msgBanned p ∈ (validate ast).1 ↔
      p ∈ BANNED_PHRASES ∧ strContains (allTextOf ast) (lowerStr p) = true := by
  have k1 := ne_msgTitleLen (msgBanned p) rfl (by decide)
  have k2 := ne_msgClaimLen (msgBanned p) rfl (by decide)
  have k3 := ne_msgInsightLen (msgBanned p) rfl (by decide)
  have k4 := ne_msgExcl (msgBanned p) rfl (by decide)
  have k6 := ne_msgEvItem (msgBanned p) "Ban".data rfl (by decide)
  simp [validate, validateSt, List.mem_append, mem_ite_cons_nil, mem_ite_nil_cons,
    mem_ite_list_nil, mem_flatten_map, List.mem_map, List.mem_filter,
    msgBanned_eq_iff,
    k1, k2, k3, k4, k6,
    ne_of_head (msgBanned p) msgMissingTitle rfl rfl (by decide),
    ne_of_head (msgBanned p) msgMissingClaim rfl rfl (by decide),
    ne_of_head (msgBanned p) msgMissingEvidence rfl rfl (by decide),
    ne_of_head (msgBanned p) msgMissingInsight rfl rfl (by decide),
    ne_of_head (msgBanned p) msgMissingSource rfl rfl (by decide),
    ne_of_head (msgBanned p) msgTitleQuestion rfl rfl (by decide),
    ne_of_head (msgBanned p) msgTitleExcl rfl rfl (by decide),
    ne_of_head (msgBanned p) msgEvCount rfl rfl (by decide),
    ne_of_head (msgBanned p) msgEmoji rfl rfl (by decide)]
  intro x i ev hmem heq hx
  rw [← heq] at hx
  rcases mem_ite_cons_nil.1 hx with ⟨_, hx2⟩
  exact absurd hx2 (k6 _ _ _)

/-- Unfolded membership for the warning list: the only possible warning
is the context-length message. -/
theorem mem_validate_warnings (ast : PartialAST) (x : Str) :
    x ∈ (validate ast).2 ↔
      (truthy ast.context ∧
        (effLimits ast.limits).context < (ast.context.getD []).length) ∧
      x = msgCtx (effLimits ast.limits).context (ast.context.getD []).length := by
  simp [validate, validateSt, mem_ite_cons_nil]

/-! ### Trimming lemmas (for the analyzer's bullet detection) -/

theorem rtrimWs_cons_of_any {l : Str} (h : l.any (fun c => !jsWhitespace c) = true)
    (a : Char) : rtrimWs (a :: l) = a :: rtrimWs l := by
  have hne : ¬ (l.reverse.dropWhile jsWhitespace).isEmpty = true := by
    rw [List.isEmpty_iff, List.dropWhile_eq_nil_iff]
    push_neg
    rcases List.any_eq_true.1 h with ⟨x, hx, hxw⟩
    exact ⟨x, List.mem_reverse.2 hx, by simpa using hxw⟩
  show ((a :: l).reverse.dropWhile jsWhitespace).reverse =
    a :: (l.reverse.dropWhile jsWhitespace).reverse
  rw [List.reverse_cons, List.dropWhile_append, if_neg hne, List.reverse_append]
  simp

theorem rtrimWs_head_nonws (a : Char) (ha : jsWhitespace a = false) (l : Str) :
    ∃ t, rtrimWs (a :: l) = a :: t := by
  show ∃ t, ((a :: l).reverse.dropWhile jsWhitespace).reverse = a :: t
  rw [List.reverse_cons, List.dropWhile_append]
  by_cases hc : (l.reverse.dropWhile jsWhitespace).isEmpty = true
  · rw [if_pos hc]
    exact ⟨[], by simp [List.dropWhile_cons, ha]⟩
  · rw [if_neg hc]
    exact ⟨(l.reverse.dropWhile jsWhitespace).reverse, by simp⟩

theorem jsTrim_cons_nonws (a : Char) (ha : jsWhitespace a = false) (l : Str) :
    jsTrim (a :: l) = rtrimWs (a :: l) := by
  show rtrimWs ((a :: l).dropWhile jsWhitespace) = rtrimWs (a :: l)
  rw [List.dropWhile_cons, if_neg (by simp [ha])]

theorem bulletPattern_cons_false {c : Char} (hc : bulletChar c = false) (l : Str) :
    bulletPattern (c :: l) = false := by
  cases l with
  | nil => rfl
  | cons d t => simp [bulletPattern, hc]

/-! ### Concrete documents and sources used in the claims -/

/-- The minimal valid post of the language documentation: five lines, the
source line carrying only a quoted title and a URL. -/
def srcMinimal : Str :=
  "# \x22Title\x22\n! \x22Claim\x22\n+ 10% | \x22improvement\x22\n> \x22Insight\x22\n@ \x22Source\x22 | https://example.com".data

/-- The minimal post that the implemented three-segment source grammar
accepts: the same five fields plus a credibility segment. -/
def srcMinimal3 : Str :=
  "# \x22Title\x22\n! \x22Claim\x22\n+ 10% | \x22improvement\x22\n> \x22Insight\x22\n@ \x22Source\x22 | https://example.com | \x22credible\x22".data

/-- The generated text of the minimal (three-segment) post. -/
def genMinText : Str := (compile srcMinimal3).output.getD []

/-- A 460-character context, within no error-producing limit (context
length is only a warning) but pushing the total output over 500. -/
def ctx460 : Str := List.replicate 460 'a'

/-- A fully valid post with a `^ total 500` override whose output length
is 510: between the override (500) and the default (700). -/
def srcTotal500 : Str :=
  "^ total 500\n# \x22T\x22\n! \x22C\x22\n+ 1% | \x22up\x22\n> \x22I\x22\n? \x22".data ++
    ctx460 ++ "\x22\n@ \x22S\x22 | https://e.co | \x22c\x22".data

/-- The same post without the limit directive. -/
def srcNoTotal : Str :=
  "# \x22T\x22\n! \x22C\x22\n+ 1% | \x22up\x22\n> \x22I\x22\n? \x22".data ++
    ctx460 ++ "\x22\n@ \x22S\x22 | https://e.co | \x22c\x22".data

/-- A 101-character context (one over the default context limit). -/
def ctx101 : Str := List.replicate 101 'a'

/-- A fully valid post whose context exceeds the context limit. -/
def srcLongCtx : Str :=
  "# \x22T\x22\n! \x22C\x22\n+ 1% | \x22up\x22\n> \x22I\x22\n? \x22".data ++
    ctx101 ++ "\x22\n@ \x22S\x22 | https://e.co | \x22c\x22".data

/-- An otherwise valid post whose title contains one emoji (U+2600,
inside the emoji class). -/
def srcOneEmoji : Str :=
  "# \x22Hi ".data ++ [Char.ofNat 0x2600] ++
    "\x22\n! \x22A claim\x22\n+ 10% | \x22up\x22\n> \x22Ok\x22\n@ \x22S\x22 | https://e.com | \x22c\x22".data

/-- A document whose prose fields individually contain no banned phrase,
while their space-joined concatenation does, and whose source title
contains that same phrase. -/
def astBoundary : PartialAST :=
  { title := some "my game".data
    claim := some "changer here".data
    evidence := [{ value := "5%".data, context := "up".data }]
    insight := some "fine".data
    source := some { title := "game changer".data, url := "u".data,
                     credibility := "c".data } }

/-! ### Claim C1 -/

/-- C1: the five-line minimal post — whose source directive carries
exactly a quoted title and a URL — does NOT compile: the implemented
source regex demands a third quoted credibility segment, so the parser
emits an invalid-source error for line 5 and `compile` fails.  (This
contradicts the claim and the program's own documentation, which give the
two-segment grammar, its error message `Use @ "Title" | url`, and this
exact example as the minimal valid post.) -/
theorem c1_minimal_post_rejected :
    compile srcMinimal =
      { success := false, output := none,
        errors := [msgInvalidSource 5], warnings := [] } := by decide

/-! ### Claim C2 -/

/-- C2 counterexample: analyzing the generated text of the minimal valid
post does not give score 100 — refuting the claim's conjunction of
`valid = true` and `score = 100` at this concrete input. -/
theorem c2_generated_not_score100 :
    ¬ ((analyze genMinText).valid = true ∧ (analyze genMinText).score = 100) := by
  decide

/-- C2 (amended): feeding the generator's output for the minimal valid
post into `analyze` yields `valid = true` and score 95: the single
evidence line triggers the only-one-evidence warning (−5), while title,
claim, evidence, insight and source are all detected and no issue is
raised. -/
theorem c2_generated_analysis :
    (compile srcMinimal3).success = true ∧
    analyze genMinText =
      { valid := true, score := 95,
        struct :=
          { hasTitle := true, hasClaim := true, hasEvidence := true,
            evidenceCount := 1, hasInsight := true, hasSource := true },
        issues := [],
        warnings := ["Only 1 evidence point - consider adding more".data],
        suggestions := [] } := by decide

/-! ### Claim C7 -/

/-- C7: a `^ total 500` directive replaces the default total limit of 700
for the post-generation length check (a 510-character output fails with
the override and succeeds without it); a `^ foo 10` directive is silently
ignored — no parse error and the effective limits stay at the defaults;
and of several directives for the same key the last one wins. -/
theorem c7_limit_overrides :
    (parse srcTotal500).2 = [] ∧
    (effLimits (parse srcTotal500).1.limits).total = 500 ∧
    (compile srcTotal500).success = false ∧
    (compile srcTotal500).errors = [msgTotal 500 510] ∧
    (compile srcNoTotal).success = true ∧
    ((compile srcNoTotal).output.getD []).length = 510 ∧
    (parse "^ foo 10".data).2 = [] ∧
    effLimits (parse "^ foo 10".data).1.limits = DEFAULT_LIMITS ∧
    (effLimits (parse "^ total 500\n^ total 250".data).1.limits).total = 250 := by
  decide

/-! ### Claim C9 -/

/-- C9: `compile` is NOT stateless across calls.  The module-level emoji
regex carries the global flag, and `test` advances its `lastIndex`: on a
source with exactly one emoji the first call reports the emoji error and
fails, while the immediately following call on the very same string finds
no emoji at or after the stored index and succeeds — two successive calls
return different results. -/
theorem c9_emoji_state_leak :
    (compileSt 0 srcOneEmoji).1.success = false ∧
    (compileSt 0 srcOneEmoji).1.errors = [msgEmoji] ∧
    (compileSt (compileSt 0 srcOneEmoji).2 srcOneEmoji).1.success = true ∧
    ¬ (compileSt (compileSt 0 srcOneEmoji).2 srcOneEmoji).1 =
        (compileSt 0 srcOneEmoji).1 := by decide

/-! ### Claim C3 -/

/-- A small document whose title contains a banned phrase (for the C3
witness). -/
def astTitleGm : PartialAST := { title := some "a game-changer".data }

/-- C3 counterexample: in `astBoundary` the phrase `game changer` occurs
in no single prose field (title, claim, insight, context, evidence
context) — only in the source title — yet `validate` reports the
banned-phrase error, because the phrase arises across a field boundary in
the space-joined scan text.  This refutes the claim's assertion that a
phrase occurring only in the source fields causes no such error. -/
theorem c3_source_only_phrase_still_flagged :
    "game changer".data ∈ BANNED_PHRASES ∧
    ((proseFields astBoundary).all
      (fun f => !(strContains (lowerStr f) (lowerStr "game changer".data)))) = true ∧
    strContains
      (lowerStr (astBoundary.source.getD
        { title := [], url := [], credibility := [] }).title)
      (lowerStr "game changer".data) = true ∧
    msgBanned "game changer".data ∈ (validate astBoundary).1 := by decide

/-- C3 (amended): a banned phrase occurring inside any prose field yields
the banned-phrase error naming it; the banned-phrase errors are invariant
under arbitrary changes of the source and credential fields (they are
never scanned); and whenever the phrase does not occur in the space-joined
prose text, the error is absent — so a phrase confined to source or
credential triggers no error unless the joined prose text happens to
contain the phrase across a field boundary. -/
theorem c3_banned_scan_scope (ast : PartialAST) (p f : Str)
    (hp : p ∈ BANNED_PHRASES) :
    (f ∈ proseFields ast → lowerStr p <:+: lowerStr f →
      msgBanned p ∈ (validate ast).1) ∧
    (∀ (s : Option SourceRef) (cr : Option Str),
      msgBanned p ∈ (validate { ast with source := s, credential := cr }).1 ↔
        msgBanned p ∈ (validate ast).1) ∧
    (¬ lowerStr p <:+: allTextOf ast → ¬ msgBanned p ∈ (validate ast).1) := by
  refine ⟨?_, ?_, ?_⟩
  · intro hf hinf
    rw [mem_validate_banned]
    refine ⟨hp, ?_⟩
    rw [strContains_iff]
    have hpne : ¬ p = [] := (by decide : ∀ q ∈ BANNED_PHRASES, ¬ q = []) p hp
    have hlne : ¬ lowerStr p = [] := by
      simpa [lowerStr, List.map_eq_nil_iff] using hpne
    have hfne : ¬ f = [] := by
      have h2 := hinf.ne_nil hlne
      simpa [lowerStr, List.map_eq_nil_iff] using h2
    have hf2 : f ∈ (proseFields ast).filter (fun s => !s.isEmpty) :=
      List.mem_filter.2 ⟨hf, by simp [List.isEmpty_iff, hfne]⟩
    have h3 : f <:+: joinWith " ".data ((proseFields ast).filter (fun s => !s.isEmpty)) :=
      infix_joinWith _ hf2
    exact hinf.trans (h3.map Char.toLower)
  · intro s cr
    have he : allTextOf { ast with source := s, credential := cr } = allTextOf ast := rfl
    rw [mem_validate_banned, mem_validate_banned, he]
  · intro hni hmem
    exact hni (strContains_iff.1 ((mem_validate_banned ast p).1 hmem).2)

/-- Witness for C3: the amended theorem applied to a concrete document
whose title contains `game-changer`. -/
theorem c3_witness :
    msgBanned "game-changer".data ∈ (validate astTitleGm).1 :=
  (c3_banned_scan_scope astTitleGm "game-changer".data "a game-changer".data
      (by decide)).1 (by decide)
    (strContains_iff.1 (by decide))

/-! ### Claim C4 -/

/-- C4: whenever parsing yields a nonempty error list, `compile` returns
failure carrying exactly those parse errors and an empty warning list —
validation is never reached, so parse errors and validation errors are
never mixed. -/
theorem c4_parse_errors_short_circuit (src : Str) (h : ¬ (parse src).2 = []) :
    compile src =
      { success := false, output := none,
        errors := (parse src).2, warnings := [] } := by
  have hl : 0 < (parse src).2.length := List.length_pos.2 h
  simp [compile, compileSt, hl]

/-- Witness for C4 at the one-line source `#`. -/
theorem c4_witness :
    compile "#".data =
      { success := false, output := none,
        errors := [msgInvalidTitle 1], warnings := [] } := by
  have h := c4_parse_errors_short_circuit "#".data (by decide)
  rw [h]
  decide

/-! ### Claim C5 -/

/-- C5: an over-long context is reported as the context warning and never
as an error, and it does not block compilation: given a source that parses
cleanly, validates with no errors, and generates within the total limit,
`compile` succeeds and carries the warnings — even though the context
exceeds its limit and the warning list contains the context message. -/
theorem c5_context_overflow_is_warning (src c : Str)
    (hp : (parse src).2 = [])
    (hc : (parse src).1.context = some c)
    (hlen : (effLimits (parse src).1.limits).context < c.length)
    (hv : (validate (parse src).1).1 = [])
    (ht : (generate (parse src).1).length ≤ (effLimits (parse src).1.limits).total) :
    msgCtx (effLimits (parse src).1.limits).context c.length ∈ (validate (parse src).1).2 ∧
    (∀ a b : Nat, ¬ msgCtx a b ∈ (validate (parse src).1).1) ∧
    compile src =
      { success := true, output := some (generate (parse src).1),
        errors := [], warnings := (validate (parse src).1).2 } := by
  refine ⟨?_, fun a b => not_mem_validate_ctx _ a b, ?_⟩
  · rw [mem_validate_warnings]
    have hpos : 0 < c.length := Nat.lt_of_le_of_lt (Nat.zero_le _) hlen
    refine ⟨⟨?_, ?_⟩, ?_⟩
    · simp [truthy, hc, List.isEmpty_iff]
      exact List.length_pos.1 hpos
    · simpa [hc] using hlen
    · simp [hc]
  · have hv' : (validateSt 0 (parse src).1).1.1 = [] := hv
    have ht' : ¬ (effLimits (parse src).1.limits).total < (generate (parse src).1).length :=
      Nat.not_lt.2 ht
    simp [compile, compileSt, hp, hv', ht', validate]

/-- Witness for C5 at a concrete valid source with a 101-character
context. -/
theorem c5_witness :
    msgCtx (effLimits (parse srcLongCtx).1.limits).context ctx101.length ∈
      (validate (parse srcLongCtx).1).2 ∧
    compile srcLongCtx =
      { success := true, output := some (generate (parse srcLongCtx).1),
        errors := [], warnings := (validate (parse srcLongCtx).1).2 } := by
  have h := c5_context_overflow_is_warning srcLongCtx ctx101
    (by decide) (by decide) (by decide) (by decide) (by decide)
  exact ⟨h.1, h.2.2⟩

/-! ### Claim C6 -/

/-- C6: the evidence-count error appears exactly when the document has
more than 5 evidence items (so exactly 5 items are clean, 6 or more
produce it), the missing-evidence error appears exactly when the document
has zero items, and the bound is insensitive to any configured limits. -/
theorem c6_evidence_count_bound (ast : PartialAST) :
    (msgEvCount ∈ (validate ast).1 ↔ 5 < ast.evidence.length) ∧
    (msgMissingEvidence ∈ (validate ast).1 ↔ ast.evidence = []) ∧
    (∀ o : Option LimitsOverride,
      (msgEvCount ∈ (validate { ast with limits := o }).1 ↔
        msgEvCount ∈ (validate ast).1)) := by
  refine ⟨mem_validate_evCount ast, mem_validate_missingEvidence ast, ?_⟩
  intro o
  rw [mem_validate_evCount, mem_validate_evCount]

/-! ### Claim C8 -/

/-- C8: for every document, each `Missing <symbol> (<name>)` error is
reported exactly when the corresponding field is absent (a missing or
empty title, claim or insight; an evidence list with zero items; a
missing source), and never for a present field. -/
theorem c8_missing_field_errors (ast : PartialAST) :
    (msgMissingTitle ∈ (validate ast).1 ↔ truthy ast.title = false) ∧
    (msgMissingClaim ∈ (validate ast).1 ↔ truthy ast.claim = false) ∧
    (msgMissingEvidence ∈ (validate ast).1 ↔ ast.evidence = []) ∧
    (msgMissingInsight ∈ (validate ast).1 ↔ truthy ast.insight = false) ∧
    (msgMissingSource ∈ (validate ast).1 ↔ ast.source = none) :=
  ⟨mem_validate_missingTitle ast, mem_validate_missingClaim ast,
   mem_validate_missingEvidence ast, mem_validate_missingInsight ast,
   mem_validate_missingSource ast⟩

/-! ### Claim C10 -/

/-- C10: in the analyzer's evidence detection, a line beginning with `-`
or `*` followed by whitespace counts as evidence, while a line beginning
with the bullet character `•` (U+2022) followed by whitespace counts only
if the numeric pattern matches — because the bullet character class
contains the mojibake characters `â` (U+00E2), `€` (U+20AC), `¢` (U+00A2)
rather than `•` itself.  The concrete analyzer runs show the resulting
difference in evidence detection. -/
theorem c10_bullet_mojibake (w : Char) (rest : Str)
    (hw : jsWhitespace w = true)
    (hr : rest.any (fun c => !jsWhitespace c) = true) :
    countsAsEvidence ('-' :: w :: rest) = true ∧
    countsAsEvidence ('*' :: w :: rest) = true ∧
    (∀ tail : Str, countsAsEvidence (Char.ofNat 0x2022 :: tail) =
      evidencePattern (Char.ofNat 0x2022 :: tail)) ∧
    bulletChar (Char.ofNat 0x2022) = false ∧
    bulletChar (Char.ofNat 0xE2) = true ∧
    bulletChar (Char.ofNat 0x20AC) = true ∧
    bulletChar (Char.ofNat 0xA2) = true ∧
    (analyze "A\n- b\nc".data).struct.hasEvidence = true ∧
    (analyze ("A\n".data ++ [Char.ofNat 0x2022] ++ " b\nc".data)).struct.hasEvidence
      = false := by
  have hwr : (w :: rest).any (fun c => !jsWhitespace c) = true := by
    simp [List.any_cons, hr]
  have hdash : jsTrim ('-' :: w :: rest) = '-' :: w :: rtrimWs rest := by
    rw [jsTrim_cons_nonws '-' (by decide), rtrimWs_cons_of_any hwr,
      rtrimWs_cons_of_any hr]
  have hstar : jsTrim ('*' :: w :: rest) = '*' :: w :: rtrimWs rest := by
    rw [jsTrim_cons_nonws '*' (by decide), rtrimWs_cons_of_any hwr,
      rtrimWs_cons_of_any hr]
  refine ⟨?_, ?_, ?_, by decide, by decide, by decide, by decide,
    by decide, by decide⟩
  · simp [countsAsEvidence, hdash, bulletPattern, bulletChar, hw]
  · simp [countsAsEvidence, hstar, bulletPattern, bulletChar, hw]
  · intro tail
    obtain ⟨t, ht⟩ := rtrimWs_head_nonws (Char.ofNat 0x2022) (by decide) tail
    simp [countsAsEvidence, jsTrim_cons_nonws (Char.ofNat 0x2022) (by decide), ht,
      bulletPattern_cons_false (show bulletChar (Char.ofNat 0x2022) = false by decide)]

/-- Witness for C10 at a space and a one-character rest. -/
theorem c10_witness :
    countsAsEvidence ('-' :: ' ' :: "x".data) = true :=
  (c10_bullet_mojibake ' ' "x".data (by decide) (by decide)).1

end PostLang
